import Mathlib

/-!
# Verification of the my-json-database persistence engine

A shallow embedding of `src/index.js`: an embedded, file-backed JSON document
store.  JavaScript values are modelled by the tagged union `JValue`
(JS numbers are restricted to integers, which covers every behaviour the
specification exercises); JS objects are insertion-ordered association lists;
the backing file is the `file : String` field of `DBState`, overwritten by
`save` exactly as `fs.writeFileSync` overwrites the backing file.

Operations that can throw at runtime (TypeError from dereferencing
`undefined`, the explicit `throw` in `clear`) return `Except JsErr`.
-/

set_option autoImplicit false

/-- A JavaScript/JSON value as stored in the database tree.
`vundefined` models `undefined` (the result of a missing property read);
`vnan` models the number `NaN` (reachable through `add`/`subtract` coercion).
Objects are insertion-ordered association lists, matching JS property order
for the string keys this API uses. -/
inductive JValue where
  | vundefined
  | vnull
  | vnan
  | vbool (b : Bool)
  | vnum (n : Int)
  | vstr (s : String)
  | varr (elems : List JValue)
  | vobj (fields : List (String × JValue))

/-- Runtime failures surfaced by the database operations. -/
inductive JsErr where
  /-- a JS runtime TypeError (e.g. dereferencing `undefined`,
  calling a missing method) -/
  | typeError
  /-- the explicit `new Error` thrown by `clear` when the key check fails -/
  | keyNotFound (key : String)

/-- JS truthiness: `undefined`, `null`, `NaN`, `false`, `0` and `""` are falsy;
every object and array (including empty ones) is truthy. -/
def jsTruthy : JValue → Bool
  | .vundefined => false
  | .vnull => false
  | .vnan => false
  | .vbool b => b
  | .vnum n => n != 0
  | .vstr s => !(s == "")
  | .varr _ => true
  | .vobj _ => true

/-- Reference (heap-allocated, mutable-in-place) values: objects and arrays. -/
def isRefType : JValue → Bool
  | .varr _ => true
  | .vobj _ => true
  | _ => false

/-- JS strict equality `stored === arg` in the situation this API produces:
`arg` is a value freshly constructed by the caller (a literal argument), so it
is never the same heap reference as a stored object or array.  Primitives
compare by value, `NaN` is equal to nothing, and a stored reference value is
never strictly equal to the fresh argument. -/
def jsEqFresh : JValue → JValue → Bool
  | .vundefined, .vundefined => true
  | .vnull, .vnull => true
  | .vbool a, .vbool b => a == b
  | .vnum a, .vnum b => a == b
  | .vstr a, .vstr b => a == b
  | _, _ => false

/-- First-occurrence lookup in an object's field list
(JS objects have unique keys, so this is exactly property lookup). -/
def jsLookup : List (String × JValue) → String → Option JValue
  | [], _ => none
  | (k', v) :: rest, k => if k' = k then some v else jsLookup rest k

/-- Property assignment on an object's field list: an existing key keeps its
position and gets the new value; a new key is appended
(JS insertion-order semantics). -/
def setField : List (String × JValue) → String → JValue → List (String × JValue)
  | [], k, v => [(k, v)]
  | (k', v') :: rest, k, v =>
      if k' = k then (k', v) :: rest else (k', v') :: setField rest k v

/-- `delete obj[k]`: removes the property if present. -/
def removeField : List (String × JValue) → String → List (String × JValue)
  | [], _ => []
  | (k', v') :: rest, k => if k' = k then rest else (k', v') :: removeField rest k

def isDigitChar (c : Char) : Bool := '0' ≤ c && c ≤ '9'

/-- Does the string denote a canonical array index ("0", "1", "42", ...)? -/
def parseIndex (s : String) : Option Nat :=
  let cs := s.toList
  if cs.isEmpty then none
  else if cs.all isDigitChar && (cs == ['0'] || !(cs.headD ' ' == '0')) then
    some (cs.foldl (fun n c => n * 10 + (c.toNat - 48)) 0)
  else none

/-- `key.split('.')` on the character list: splitting an empty string yields
one empty segment, and separators at the ends yield empty segments, exactly
as `String.prototype.split` with a string separator. -/
def splitDotChars : List Char → List (List Char)
  | [] => [[]]
  | c :: rest =>
      let r := splitDotChars rest
      if c = '.' then [] :: r
      else
        match r with
        | [] => [[c]]
        | g :: gs => (c :: g) :: gs

/-- `key.split('.')` as used by both nested-property helpers. -/
def splitOnDot (s : String) : List String :=
  (splitDotChars s.toList).map (fun l => String.mk l)

/-- Property read `object[key]`, as an `Except` because reading a property of
`undefined` or `null` throws a TypeError.  Reads on other primitives yield
`undefined` (string indexing by a numeric key yields the character). -/
def jsMember : JValue → String → Except JsErr JValue
  | .vundefined, _ => .error .typeError
  | .vnull, _ => .error .typeError
  | .vobj fs, k => .ok ((jsLookup fs k).getD .vundefined)
  | .varr l, k =>
      .ok (match parseIndex k with
           | some i => l.getD i .vundefined
           | none => .vundefined)
  | .vstr s, k =>
      .ok (match parseIndex k with
           | some i =>
               match (s.toList).get? i with
               | some c => .vstr (String.mk [c])
               | none => .vundefined
           | none => .vundefined)
  | .vnum _, _ => .ok .vundefined
  | .vnan, _ => .ok .vundefined
  | .vbool _, _ => .ok .vundefined

/-- Property write `object[key] = v` in sloppy mode: throws on `undefined` and
`null`; updates objects; writes array indices in range (one past the end
appends); silently no-ops on other primitives.  Out-of-range sparse writes and
non-index array properties are invisible to JSON serialization and are not
modelled (unreachable through this API). -/
def jsSetMember : JValue → String → JValue → Except JsErr JValue
  | .vundefined, _, _ => .error .typeError
  | .vnull, _, _ => .error .typeError
  | .vobj fs, k, v => .ok (.vobj (setField fs k v))
  | .varr l, k, v =>
      .ok (match parseIndex k with
           | some i =>
               if i < l.length then .varr (l.set i v)
               else if i = l.length then .varr (l ++ [v])
               else .varr l
           | none => .varr l)
  | .vstr s, _, _ => .ok (.vstr s)
  | .vnum n, _, _ => .ok (.vnum n)
  | .vnan, _, _ => .ok .vnan
  | .vbool b, _, _ => .ok (.vbool b)

/-- `delete object[key]` (sloppy mode): throws on `undefined`/`null`, removes
object properties, makes an array hole (serialized as `null`, modelled as
`undefined`), and no-ops on other primitives. -/
def jsDeleteMember : JValue → String → Except JsErr JValue
  | .vundefined, _ => .error .typeError
  | .vnull, _ => .error .typeError
  | .vobj fs, k => .ok (.vobj (removeField fs k))
  | .varr l, k =>
      .ok (match parseIndex k with
           | some i => .varr (l.set i .vundefined)
           | none => .varr l)
  | .vstr s, _ => .ok (.vstr s)
  | .vnum n, _ => .ok (.vnum n)
  | .vnan, _ => .ok .vnan
  | .vbool b, _ => .ok (.vbool b)

/-- Total property read used under a truthiness guard: a truthy receiver is
never `undefined`/`null`, so the read cannot throw; the error branch below is
unreachable there. -/
def jsProp (o : JValue) (k : String) : JValue :=
  match jsMember o k with
  | .ok v => v
  | .error _ => .vundefined

/-- The walk of `getNestedProperty`: at each segment,
`object = object && object[prop]` keeps a falsy value unchanged (without
reading) and otherwise moves to the property value.  Never throws. -/
def getNestedGo : JValue → List String → JValue
  | o, [] => o
  | o, p :: rest => getNestedGo (if jsTruthy o then jsProp o p else o) rest

/-- `getNestedProperty(object, key)` from `src/index.js`. -/
def getNestedProperty (object : JValue) (key : String) : JValue :=
  getNestedGo object (splitOnDot key)

/-- The walk of `setNestedProperty`: walks every segment but the last with an
unchecked property read (`object = object[properties[index]]`), then assigns
at the last segment.  In JS the intermediate walk follows heap references, so
a mutation through the walk is visible from the root only when the
intermediate value is a reference type; the pure embedding writes the updated
child back exactly in that case. -/
def setNestedGo : JValue → List String → JValue → Except JsErr JValue
  | o, [], _ => .ok o
  | o, [last], value => jsSetMember o last value
  | o, p :: rest, value => do
      let child ← jsMember o p
      let child' ← setNestedGo child rest value
      if isRefType child then jsSetMember o p child' else pure o

/-- `setNestedProperty(object, key, value)` from `src/index.js`. -/
def setNestedProperty (object : JValue) (key : String) (value : JValue) :
    Except JsErr JValue :=
  setNestedGo object (splitOnDot key) value

/-- Decimal rendering of a JS (integer) number. -/
def intRepr (n : Int) : String := toString n

mutual
/-- `Array.prototype.toString` = `join(",")`: elements are converted
recursively, with `null` and `undefined` rendering as the empty string. -/
def arrToString : List JValue → String
  | [] => ""
  | [e] => arrElemToString e
  | e :: rest => arrElemToString e ++ "," ++ arrToString rest

def arrElemToString : JValue → String
  | .vundefined => ""
  | .vnull => ""
  | .vnan => "NaN"
  | .vbool true => "true"
  | .vbool false => "false"
  | .vnum n => intRepr n
  | .vstr s => s
  | .varr l => arrToString l
  | .vobj _ => "[object Object]"
end

/-- JS `ToString`. -/
def jsToString : JValue → String
  | .vundefined => "undefined"
  | .vnull => "null"
  | .vnan => "NaN"
  | .vbool true => "true"
  | .vbool false => "false"
  | .vnum n => intRepr n
  | .vstr s => s
  | .varr l => arrToString l
  | .vobj _ => "[object Object]"

/-- JS `ToPrimitive` (default hint): plain objects and arrays convert through
their `toString`; primitives are unchanged. -/
def toPrim : JValue → JValue
  | .varr l => .vstr (arrToString l)
  | .vobj fs => .vstr (jsToString (.vobj fs))
  | v => v

/-- JS `ToNumber` on primitives; `none` is `NaN`.  String conversion accepts
optionally signed decimal integers (the whole-number fragment of the JS
grammar; the embedding's numbers are integers). -/
def strToNumber (s : String) : Option Int :=
  let cs := s.toList.dropWhile (fun c => c == ' ' || c == '\t' || c == '\n' || c == '\r')
  let cs := (cs.reverse.dropWhile (fun c => c == ' ' || c == '\t' || c == '\n' || c == '\r')).reverse
  match cs with
  | [] => some 0
  | '-' :: ds => if !ds.isEmpty && ds.all isDigitChar
      then some (-(ds.foldl (fun n c => n * 10 + (Int.ofNat c.toNat - 48)) 0)) else none
  | '+' :: ds => if !ds.isEmpty && ds.all isDigitChar
      then some (ds.foldl (fun n c => n * 10 + (Int.ofNat c.toNat - 48)) 0) else none
  | ds => if ds.all isDigitChar
      then some (ds.foldl (fun n c => n * 10 + (Int.ofNat c.toNat - 48)) 0) else none

def toNumber : JValue → Option Int
  | .vundefined => none
  | .vnull => some 0
  | .vnan => none
  | .vbool b => some (if b then 1 else 0)
  | .vnum n => some n
  | .vstr s => strToNumber s
  | .varr l => strToNumber (arrToString l)
  | .vobj _ => strToNumber "[object Object]"

/-- JS `a + b`: after `ToPrimitive`, a string operand forces concatenation;
otherwise both sides go through `ToNumber` and add (`NaN` is absorbing). -/
def jsPlus (a b : JValue) : JValue :=
  let pa := toPrim a
  let pb := toPrim b
  match pa, pb with
  | .vstr sa, _ => .vstr (sa ++ jsToString pb)
  | _, .vstr sb => .vstr (jsToString pa ++ sb)
  | _, _ =>
      match toNumber pa, toNumber pb with
      | some x, some y => .vnum (x + y)
      | _, _ => .vnan

/-- JS `a - b`: both sides through `ToNumber`. -/
def jsMinus (a b : JValue) : JValue :=
  match toNumber (toPrim a), toNumber (toPrim b) with
  | some x, some y => .vnum (x - y)
  | _, _ => .vnan

/-- Two-digit lowercase hex, for JSON control-character escapes. -/
def hexDigit (n : Nat) : Char :=
  if n < 10 then Char.ofNat (48 + n) else Char.ofNat (87 + n)

/-- JSON string escaping as performed by `JSON.stringify`. -/
def quoteJson (s : String) : String :=
  let esc : Char → String := fun c =>
    if c = '"' then "\\\""
    else if c = '\\' then "\\\\"
    else if c = '\n' then "\\n"
    else if c = '\t' then "\\t"
    else if c = '\r' then "\\r"
    else if c.toNat = 8 then "\\b"
    else if c.toNat = 12 then "\\f"
    else if c.toNat < 32 then
      "\\u00" ++ String.mk [hexDigit (c.toNat / 16), hexDigit (c.toNat % 16)]
    else String.mk [c]
  "\"" ++ String.join (s.toList.map esc) ++ "\""

/-- `n` levels of two-space indentation (`JSON.stringify(_, null, 2)`). -/
def indent2 (d : Nat) : String := String.mk (List.replicate (2 * d) ' ')

mutual
/-- `JSON.stringify(v, null, 2)` at nesting depth `d`: `NaN` serializes as
`null`; `undefined` appears only inside arrays, where it serializes as
`null` (object fields holding `undefined` are omitted by `jsonFieldPieces`). -/
def jsonStr : Nat → JValue → String
  | _, .vundefined => "null"
  | _, .vnull => "null"
  | _, .vnan => "null"
  | _, .vbool true => "true"
  | _, .vbool false => "false"
  | _, .vnum n => intRepr n
  | _, .vstr s => quoteJson s
  | d, .varr l =>
      match jsonItemPieces (d + 1) l with
      | [] => "[]"
      | p :: ps =>
          "[\n" ++ String.intercalate ",\n" (p :: ps) ++ "\n" ++ indent2 d ++ "]"
  | d, .vobj fs =>
      match jsonFieldPieces (d + 1) fs with
      | [] => "\x7b\x7d"
      | p :: ps =>
          "\x7b\n" ++ String.intercalate ",\n" (p :: ps) ++ "\n" ++ indent2 d ++ "\x7d"

def jsonItemPieces : Nat → List JValue → List String
  | _, [] => []
  | d, e :: rest => (indent2 d ++ jsonStr d e) :: jsonItemPieces d rest

/-- Rendered `"key": value` lines; fields holding `undefined` are omitted,
as `JSON.stringify` does. -/
def jsonFieldPieces : Nat → List (String × JValue) → List String
  | _, [] => []
  | d, (_, .vundefined) :: rest => jsonFieldPieces d rest
  | d, (k, v) :: rest =>
      (indent2 d ++ quoteJson k ++ ": " ++ jsonStr d v) :: jsonFieldPieces d rest
end

/-- The state of a `MyJsonDatabase` instance: the in-memory document
(`this.data`) and the contents of the backing file. -/
structure DBState where
  data : JValue
  file : String

/-- `this.save()` composed with the mutation that produced `d`:
`fs.writeFileSync(this.jsonFilePath, JSON.stringify(this.data, null, 2))`
overwrites the whole backing file with the serialized document. -/
def save (d : JValue) : DBState := ⟨d, jsonStr 0 d⟩

/-- `Array.prototype.indexOf(element)`: index of the first element strictly
equal to the argument, `-1` when none is. -/
def jsIndexOf (e : JValue) : List JValue → Int
  | [] => -1
  | x :: rest =>
      if jsEqFresh x e then 0
      else
        let r := jsIndexOf e rest
        if r < 0 then -1 else r + 1

/-- The `pullMany` loop: `while (i < value.length)`, splicing out the element
at `i` when it is strictly equal to the argument, advancing `i` otherwise. -/
def spliceLoop (e : JValue) (l : List JValue) (i : Nat) : List JValue :=
  if h : i < l.length then
    if jsEqFresh (l.get ⟨i, h⟩) e then spliceLoop e (l.eraseIdx i) i
    else spliceLoop e l (i + 1)
  else l
termination_by l.length - i
decreasing_by
  · have := List.length_eraseIdx_of_lt h
    omega
  · omega

/-- Is `needle` a prefix of `hay`? (character lists) -/
def prefixMatch : List Char → List Char → Bool
  | [], _ => true
  | _ :: _, [] => false
  | a :: as, b :: bs => a == b && prefixMatch as bs

/-- Does `needle` occur as a contiguous substring of `hay`?  Mirrors
`String.prototype.indexOf(needle) > -1` (an empty needle always occurs). -/
def containsSub (needle : List Char) : List Char → Bool
  | [] => prefixMatch needle []
  | c :: rest => prefixMatch needle (c :: rest) || containsSub needle rest

/-- `value[i] === element` for a string `value`: the indexed access yields a
fresh one-character string, so a match requires `element` to be that
one-character string. -/
def strCharMatch (s : String) (e : JValue) : Bool :=
  match e with
  | .vstr t => s.toList.any (fun c => String.mk [c] == t)
  | _ => false

/-- `this.get(key)`. -/
def MyJsonDatabase.get (s : DBState) (key : String) : JValue :=
  getNestedProperty s.data key

/-- `this.has(key)`: loose inequality `!= undefined`, which is `false` for
both `undefined` and `null`. -/
def MyJsonDatabase.has (s : DBState) (key : String) : Bool :=
  match getNestedProperty s.data key with
  | .vundefined => false
  | .vnull => false
  | _ => true

/-- `this.set(key, value)`: nested write, then `this.save()`. -/
def MyJsonDatabase.set (s : DBState) (key : String) (value : JValue) :
    Except JsErr DBState :=
  match setNestedProperty s.data key value with
  | .ok d => .ok (save d)
  | .error e => .error e

/-- `this.delete(key)`: `delete this.data[key]`, then save. -/
def MyJsonDatabase.delete (s : DBState) (key : String) : Except JsErr DBState :=
  match jsDeleteMember s.data key with
  | .ok d => .ok (save d)
  | .error e => .error e

/-- The idiom `if (!this.data[key]) this.data[key] = dflt;` shared by `add`,
`subtract`, `push`, `pullOne` and `pullMany`: read the property, and when it
is falsy assign the default, returning the (possibly updated) document. -/
def readInit (d : JValue) (key : String) (dflt : JValue) : Except JsErr JValue :=
  match jsMember d key with
  | .error e => .error e
  | .ok v0 => if jsTruthy v0 then .ok d else jsSetMember d key dflt

/-- `this.add(key, count)`: initialize a falsy slot to `0`, then
`this.data[key] += count` (JS `+` coercion; no type check), then save. -/
def MyJsonDatabase.add (s : DBState) (key : String) (count : JValue) :
    Except JsErr DBState :=
  match readInit s.data key (.vnum 0) with
  | .error e => .error e
  | .ok d1 =>
      match jsMember d1 key with
      | .error e => .error e
      | .ok v1 =>
          match jsSetMember d1 key (jsPlus v1 count) with
          | .error e => .error e
          | .ok d2 => .ok (save d2)

/-- `this.subtract(key, count)`: as `add`, with `-=`. -/
def MyJsonDatabase.subtract (s : DBState) (key : String) (count : JValue) :
    Except JsErr DBState :=
  match readInit s.data key (.vnum 0) with
  | .error e => .error e
  | .ok d1 =>
      match jsMember d1 key with
      | .error e => .error e
      | .ok v1 =>
          match jsSetMember d1 key (jsMinus v1 count) with
          | .error e => .error e
          | .ok d2 => .ok (save d2)

/-- `this.push(key, element)`: initialize a falsy slot to `[]`, then
`this.data[key].push(element)` — a TypeError unless the value is an array,
because no other value reachable here has a `push` method — then save. -/
def MyJsonDatabase.push (s : DBState) (key : String) (element : JValue) :
    Except JsErr DBState :=
  match readInit s.data key (.varr []) with
  | .error e => .error e
  | .ok d1 =>
      match jsMember d1 key with
      | .error e => .error e
      | .ok v1 =>
          match v1 with
          | .varr l =>
              match jsSetMember d1 key (.varr (l ++ [element])) with
              | .error e => .error e
              | .ok d2 => .ok (save d2)
          | _ => .error .typeError

/-- `this.pullOne(key, element)`: initialize a falsy slot to `[]`; on an array,
`indexOf` then a single `splice` when found; on a string, `indexOf` exists
(coercing the argument to a string) but a found index reaches
`value.splice`, which is not a function on strings; any other receiver has no
`indexOf`.  Saves on every non-throwing path. -/
def MyJsonDatabase.pullOne (s : DBState) (key : String) (element : JValue) :
    Except JsErr DBState :=
  match readInit s.data key (.varr []) with
  | .error e => .error e
  | .ok d1 =>
      match jsMember d1 key with
      | .error e => .error e
      | .ok v1 =>
          match v1 with
          | .varr l =>
              let idx := jsIndexOf element l
              let l2 := if idx > -1 then l.eraseIdx idx.toNat else l
              match jsSetMember d1 key (.varr l2) with
              | .error e => .error e
              | .ok d2 => .ok (save d2)
          | .vstr str =>
              if containsSub (jsToString element).toList str.toList then
                .error .typeError
              else .ok (save d1)
          | _ => .error .typeError

/-- `this.pullMany(key, element)`: initialize a falsy slot to `[]`; on an
array, the splice loop; on a string, the loop reads characters and a strict
match reaches `splice` (TypeError); on other receivers `value.length` is
`undefined`, `i < undefined` is false, and the loop is skipped — except that
reading `.length` of `undefined`/`null` itself throws.  Saves on every
non-throwing path. -/
def MyJsonDatabase.pullMany (s : DBState) (key : String) (element : JValue) :
    Except JsErr DBState :=
  match readInit s.data key (.varr []) with
  | .error e => .error e
  | .ok d1 =>
      match jsMember d1 key with
      | .error e => .error e
      | .ok v1 =>
          match v1 with
          | .varr l =>
              match jsSetMember d1 key (.varr (spliceLoop element l 0)) with
              | .error e => .error e
              | .ok d2 => .ok (save d2)
          | .vstr str =>
              if strCharMatch str element then .error .typeError
              else .ok (save d1)
          | .vundefined => .error .typeError
          | .vnull => .error .typeError
          | _ => .ok (save d1)

/-- `this.clear(key)`: `if (!this.data[key]) throw new Error(...)` — a
falsiness check, not an existence check — then `this.data[key] = {}` and
save. -/
def MyJsonDatabase.clear (s : DBState) (key : String) : Except JsErr DBState :=
  match jsMember s.data key with
  | .error e => .error e
  | .ok v0 =>
      if jsTruthy v0 then
        match jsSetMember s.data key (.vobj []) with
        | .error e => .error e
        | .ok d => .ok (save d)
      else .error (.keyNotFound key)

/-- `this.clearAll()`: `this.data = {}` and save.  Never throws. -/
def MyJsonDatabase.clearAll (_s : DBState) : DBState :=
  save (.vobj [])

/-- An element of the result of `this.all()`: the record `{key, data}`. -/
structure AllEntry where
  key : String
  data : JValue

/-- Insert a field into a list sorted ascending by numeric key
(`(parseIndex ·.1).getD 0`); used to model the integer-key segment of JS own
property order. -/
def insertByIdx (p : String × JValue) :
    List (String × JValue) → List (String × JValue)
  | [] => [p]
  | q :: rest =>
      if (parseIndex p.1).getD 0 < (parseIndex q.1).getD 0 then p :: q :: rest
      else q :: insertByIdx p rest

/-- Insertion sort by numeric key value. -/
def sortByIdx : List (String × JValue) → List (String × JValue)
  | [] => []
  | p :: rest => insertByIdx p (sortByIdx rest)

/-- JS own-property enumeration order (`OrdinaryOwnPropertyKeys`, as used by
`Object.keys` and object iteration): integer-like keys (canonical decimal
strings; the 2^53 upper bound of JS integer indices is not modelled) first in
ascending numeric order, then the remaining string keys in insertion order. -/
def jsOwnKeysOrder (fs : List (String × JValue)) : List (String × JValue) :=
  sortByIdx (fs.filter (fun p => (parseIndex p.1).isSome))
    ++ fs.filter (fun p => !(parseIndex p.1).isSome)

/-- `this.all()`: `Object.keys(this.data).map(key => ({key, data:
this.data[key]}))`.  `Object.keys` enumerates the fields in JS own-property
order (integer-like keys first, ascending; then insertion order), throws on
`undefined`/`null`, yields the index strings on an array, and an empty list
on other primitives. -/
def MyJsonDatabase.all (s : DBState) : Except JsErr (List AllEntry) :=
  match s.data with
  | .vobj fs =>
      .ok ((jsOwnKeysOrder fs).map
        (fun p => ⟨p.1, (jsLookup fs p.1).getD .vundefined⟩))
  | .vundefined => .error .typeError
  | .vnull => .error .typeError
  | .varr l => .ok (l.enum.map (fun p => ⟨toString p.1, p.2⟩))
  | _ => .ok []

/-- `typeof v === "object"`: true for `null`, arrays and plain objects. -/
def typeofIsObject : JValue → Bool
  | .vnull => true
  | .varr _ => true
  | .vobj _ => true
  | _ => false

/-- `this.fetchDataFromFile()` after a successful `JSON.parse`: the parsed
value replaces the document whenever `typeof savedData === "object"`;
otherwise the previous document (the constructor's `{}`) is kept. -/
def MyJsonDatabase.fetchDataFromFile (old parsed : JValue) : JValue :=
  if typeofIsObject parsed then parsed else old

/-- What a call to `makeSnapshot` does to the backup directory. -/
inductive SnapshotOutcome where
  /-- a file of this name, with these contents, is written -/
  | wrote (fileName content : String)
  /-- the call throws before writing anything -/
  | crashed (err : JsErr)

/-- No value of `JValue` is callable; in particular the `join` property of a
string is `undefined` (`String.prototype` has no `join` method). -/
def jsCallable : JValue → Bool := fun _ => false

/-- `this.makeSnapshot(path)` with the directory defaulting already applied:
computes the file name, then evaluates `path.join(path, fileName)` — but
`path` is the local *string* variable, whose `join` property is `undefined`,
so the call throws a TypeError before `fs.writeFileSync` runs.  (Even the
write call itself passes no content argument.) -/
def MyJsonDatabase.makeSnapshot (dir : String) (now : Nat) : SnapshotOutcome :=
  let fileName := "backup-" ++ toString now ++ ".json"
  match jsMember (.vstr dir) "join" with
  | .ok joinMember =>
      if jsCallable joinMember then .wrote (dir ++ fileName) ""
      else .crashed .typeError
  | .error e => .crashed e

/-- The mutating operations of the public surface, as one sum type (used to
state the persistence invariant once for all of them). -/
inductive MutOp where
  | mset (key : String) (value : JValue)
  | mdelete (key : String)
  | madd (key : String) (count : JValue)
  | msubtract (key : String) (count : JValue)
  | mpush (key : String) (element : JValue)
  | mpullOne (key : String) (element : JValue)
  | mpullMany (key : String) (element : JValue)
  | mclear (key : String)
  | mclearAll

/-- Dispatch a mutating operation to its method. -/
def applyOp (s : DBState) : MutOp → Except JsErr DBState
  | .mset k v => MyJsonDatabase.set s k v
  | .mdelete k => MyJsonDatabase.delete s k
  | .madd k c => MyJsonDatabase.add s k c
  | .msubtract k c => MyJsonDatabase.subtract s k c
  | .mpush k e => MyJsonDatabase.push s k e
  | .mpullOne k e => MyJsonDatabase.pullOne s k e
  | .mpullMany k e => MyJsonDatabase.pullMany s k e
  | .mclear k => MyJsonDatabase.clear s k
  | .mclearAll => .ok (MyJsonDatabase.clearAll s)

theorem setField_self (fs : List (String × JValue)) (k : String) (v : JValue)
    (h : jsLookup fs k = some v) : setField fs k v = fs := by
  induction fs with
  | nil => simp [jsLookup] at h
  | cons p rest ih =>
      obtain ⟨k', v'⟩ := p
      by_cases hk : k' = k
      · simp [jsLookup, hk] at h
        simp [setField, hk, h]
      · simp [jsLookup, hk] at h
        simp [setField, hk, ih h]

/-- Specification-side description of `pullOne`'s list effect: remove exactly
the first strictly-equal element, keeping everything else in order. -/
def eraseFirstMatch (e : JValue) : List JValue → List JValue
  | [] => []
  | x :: rest => if jsEqFresh x e then rest else x :: eraseFirstMatch e rest

theorem pullOne_list_eq (e : JValue) (l : List JValue) :
    (if jsIndexOf e l > -1 then l.eraseIdx (jsIndexOf e l).toNat else l)
      = eraseFirstMatch e l := by
  induction l with
  | nil =>
      rw [show jsIndexOf e [] = -1 from rfl,
        if_neg (by omega : ¬((-1 : Int) > -1))]
      rfl
  | cons x rest ih =>
      have hunf : jsIndexOf e (x :: rest)
          = if jsEqFresh x e then 0
            else if jsIndexOf e rest < 0 then -1 else jsIndexOf e rest + 1 := rfl
      rw [hunf]
      by_cases hx : jsEqFresh x e
      · rw [if_pos hx, if_pos (by omega : (0 : Int) > -1)]
        simp [eraseFirstMatch, hx, List.eraseIdx]
      · rw [if_neg hx]
        by_cases hr : jsIndexOf e rest < 0
        · rw [if_pos hr, if_neg (by omega : ¬((-1 : Int) > -1))]
          rw [if_neg (by omega : ¬(jsIndexOf e rest > -1))] at ih
          simp only [eraseFirstMatch]
          rw [if_neg hx, ← ih]
        · rw [if_neg hr, if_pos (by omega : jsIndexOf e rest + 1 > -1)]
          rw [if_pos (by omega : jsIndexOf e rest > -1)] at ih
          have htn : (jsIndexOf e rest + 1).toNat
              = (jsIndexOf e rest).toNat + 1 := by omega
          rw [htn]
          have herase : (x :: rest).eraseIdx ((jsIndexOf e rest).toNat + 1)
              = x :: rest.eraseIdx (jsIndexOf e rest).toNat := rfl
          rw [herase]
          simp [eraseFirstMatch, hx, ih]

theorem eraseFirstMatch_no_match (e : JValue) (l : List JValue)
    (h : ∀ x ∈ l, jsEqFresh x e = false) : eraseFirstMatch e l = l := by
  induction l with
  | nil => rfl
  | cons x rest ih =>
      have hx := h x (List.mem_cons_self x rest)
      simp [eraseFirstMatch, hx, ih (fun y hy => h y (List.mem_cons_of_mem x hy))]

theorem eraseIdx_append_len (pre : List JValue) (x : JValue) (rs : List JValue) :
    (pre ++ x :: rs).eraseIdx pre.length = pre ++ rs := by
  induction pre with
  | nil => rfl
  | cons a as ih => simp [List.eraseIdx, ih]

theorem get_append_len (pre : List JValue) (x : JValue) (rs : List JValue)
    (h : pre.length < (pre ++ x :: rs).length) :
    (pre ++ x :: rs).get ⟨pre.length, h⟩ = x := by
  induction pre with
  | nil => rfl
  | cons a as ih => simpa [List.get] using ih (by simp)

theorem spliceLoop_append (e : JValue) (rest : List JValue) :
    ∀ pre : List JValue,
      spliceLoop e (pre ++ rest) pre.length
        = pre ++ rest.filter (fun x => !jsEqFresh x e) := by
  induction rest with
  | nil =>
      intro pre
      rw [spliceLoop]
      simp
  | cons x rs ih =>
      intro pre
      rw [spliceLoop]
      have hlt : pre.length < (pre ++ x :: rs).length := by simp
      rw [dif_pos hlt, get_append_len pre x rs hlt]
      by_cases hx : jsEqFresh x e
      · rw [if_pos hx, eraseIdx_append_len, ih pre]
        simp [List.filter_cons, hx]
      · rw [if_neg hx]
        have hlen : pre.length + 1 = (pre ++ [x]).length := by simp
        have happ : pre ++ x :: rs = (pre ++ [x]) ++ rs := by simp
        rw [hlen, happ, ih (pre ++ [x])]
        simp [List.filter_cons, hx]

theorem spliceLoop_eq_filter (e : JValue) (l : List JValue) :
    spliceLoop e l 0 = l.filter (fun x => !jsEqFresh x e) := by
  simpa using spliceLoop_append e l []

theorem jsEqFresh_ref (x e : JValue) (h : isRefType e = true) :
    jsEqFresh x e = false := by
  cases e <;> simp [isRefType] at h <;> cases x <;> rfl

/-- C2: after every successful mutating operation returns, the backing file's
contents equal the JSON serialization of the in-memory document (every
non-throwing path of every mutating method ends in `save`). -/
theorem claim_C2 (s : DBState) (op : MutOp) (s' : DBState)
    (h : applyOp s op = .ok s') : s'.file = jsonStr 0 s'.data := by
  cases op <;>
    simp only [applyOp, MyJsonDatabase.set, MyJsonDatabase.delete,
      MyJsonDatabase.add, MyJsonDatabase.subtract, MyJsonDatabase.push,
      MyJsonDatabase.pullOne, MyJsonDatabase.pullMany, MyJsonDatabase.clear,
      MyJsonDatabase.clearAll, readInit] at h <;>
    (repeat' split at h) <;>
    first
      | exact Except.noConfusion h
      | (injection h with h2; subst h2; rfl)

/-- The state reached by the C2 witness run: `set("a", 1)` on the empty
document. -/
def c2State : DBState := save (.vobj [("a", .vnum 1)])

/-- Witness for C2: the persistence invariant at a concrete `set`. -/
theorem claim_C2_witness :
    applyOp ⟨.vobj [], "old"⟩ (.mset "a" (.vnum 1)) = .ok c2State
      ∧ c2State.file = jsonStr 0 c2State.data :=
  ⟨rfl, claim_C2 ⟨.vobj [], "old"⟩ (.mset "a" (.vnum 1)) c2State rfl⟩

/-- C8: a write whose non-final segment is missing does not create the
intermediate mapping — it hits the error branch of the write walk: on the
empty document, `set("a.b", v)` reads `this.data["a"]` (`undefined`) and then
throws a TypeError assigning into it, for every value and file content. -/
theorem claim_C8 (f : String) (v : JValue) :
    MyJsonDatabase.set ⟨.vobj [], f⟩ "a.b" v = .error .typeError := rfl

/-- Counterexample to C5 as stated: parsing a non-mapping value is NOT always
discarded — `typeof` of an array is `"object"`, so a parsed sequence replaces
the document instead of leaving it empty. -/
theorem claim_C5_counterexample :
    MyJsonDatabase.fetchDataFromFile (.vobj []) (.varr [.vnum 1])
        = .varr [.vnum 1]
      ∧ MyJsonDatabase.fetchDataFromFile (.vobj []) (.varr [.vnum 1])
          ≠ .vobj [] := by
  refine ⟨rfl, ?_⟩
  intro hcontra
  exact JValue.noConfusion hcontra

/-- C5 amended: at construction, a parsed number, string or boolean is
discarded (the document stays the empty mapping), but a parsed sequence or
`null` passes the `typeof savedData === "object"` check and is accepted as
the document root. -/
theorem claim_C5 :
    (∀ n : Int, MyJsonDatabase.fetchDataFromFile (.vobj []) (.vnum n) = .vobj [])
      ∧ (∀ t : String,
          MyJsonDatabase.fetchDataFromFile (.vobj []) (.vstr t) = .vobj [])
      ∧ (∀ b : Bool,
          MyJsonDatabase.fetchDataFromFile (.vobj []) (.vbool b) = .vobj [])
      ∧ (∀ l : List JValue,
          MyJsonDatabase.fetchDataFromFile (.vobj []) (.varr l) = .varr l)
      ∧ MyJsonDatabase.fetchDataFromFile (.vobj []) .vnull = .vnull :=
  ⟨fun _ => rfl, fun _ => rfl, fun _ => rfl, fun _ => rfl, rfl⟩

/-- C6 (the code bug): `makeSnapshot` never writes a snapshot file.  The call
`path.join(path, fileName)` looks up `join` on the local *string* `path`,
which is `undefined` (`String.prototype` has no `join`), so every invocation
throws a TypeError before any write — for every directory and timestamp, no
`backup-<epoch-millis>.json` file is produced. -/
theorem claim_C6 (dir : String) (now : Nat) :
    MyJsonDatabase.makeSnapshot dir now = .crashed .typeError
      ∧ ∀ fileName content : String,
          MyJsonDatabase.makeSnapshot dir now ≠ .wrote fileName content := by
  refine ⟨rfl, ?_⟩
  intro fn c hcontra
  have h1 : MyJsonDatabase.makeSnapshot dir now = .crashed .typeError := rfl
  rw [hcontra] at h1
  exact SnapshotOutcome.noConfusion h1

theorem filter_no_match (e : JValue) (l : List JValue)
    (h : ∀ x ∈ l, jsEqFresh x e = false) :
    l.filter (fun x => !jsEqFresh x e) = l := by
  induction l with
  | nil => rfl
  | cons x rest ih =>
      have hx := h x (List.mem_cons_self x rest)
      simp [List.filter_cons, hx,
        ih (fun y hy => h y (List.mem_cons_of_mem x hy))]

/-- Evaluation of `pullOne` on a mapping document whose key holds an array. -/
theorem pullOne_on_list (fs : List (String × JValue)) (f k : String)
    (el : JValue) (l : List JValue) (hl : jsLookup fs k = some (.varr l)) :
    MyJsonDatabase.pullOne ⟨.vobj fs, f⟩ k el
      = .ok (save (.vobj (setField fs k (.varr (eraseFirstMatch el l))))) := by
  simp [MyJsonDatabase.pullOne, readInit, jsMember, hl, jsTruthy, jsSetMember,
    pullOne_list_eq]

/-- Evaluation of `pullMany` on a mapping document whose key holds an
array. -/
theorem pullMany_on_list (fs : List (String × JValue)) (f k : String)
    (el : JValue) (l : List JValue) (hl : jsLookup fs k = some (.varr l)) :
    MyJsonDatabase.pullMany ⟨.vobj fs, f⟩ k el
      = .ok (save (.vobj (setField fs k
          (.varr (l.filter (fun x => !jsEqFresh x el)))))) := by
  simp [MyJsonDatabase.pullMany, readInit, jsMember, hl, jsTruthy, jsSetMember,
    spliceLoop_eq_filter]

/-- C10 (implicit): `pullOne`/`pullMany` compare with strict equality (`===`,
`indexOf`), so a stored object or array that is structurally equal to — but
not the same reference as — the freshly passed argument never matches: the
sequence (indeed the whole document) is left unchanged. -/
theorem claim_C10 (s : DBState) (fs : List (String × JValue)) (k : String)
    (l : List JValue) (e x : JValue) (h : s.data = .vobj fs)
    (hl : jsLookup fs k = some (.varr l)) (href : isRefType e = true)
    (_hmem : x ∈ l) (_heq : x = e) :
    MyJsonDatabase.pullOne s k e = .ok (save s.data)
      ∧ MyJsonDatabase.pullMany s k e = .ok (save s.data) := by
  obtain ⟨d, f⟩ := s
  change d = JValue.vobj fs at h
  subst h
  have hno : ∀ z ∈ l, jsEqFresh z e = false := fun z _ => jsEqFresh_ref z e href
  constructor
  · show MyJsonDatabase.pullOne ⟨.vobj fs, f⟩ k e = .ok (save (.vobj fs))
    rw [pullOne_on_list fs f k e l hl, eraseFirstMatch_no_match e l hno,
      setField_self fs k _ hl]
  · show MyJsonDatabase.pullMany ⟨.vobj fs, f⟩ k e = .ok (save (.vobj fs))
    rw [pullMany_on_list fs f k e l hl, filter_no_match e l hno,
      setField_self fs k _ hl]

/-- Witness for C10: the stored element `{a: 1}` is structurally equal to the
fresh argument `{a: 1}`, and neither pull removes it. -/
theorem claim_C10_witness :
    (⟨.vobj [("l", .varr [.vobj [("a", .vnum 1)]])], "f"⟩ : DBState).data
        = .vobj [("l", .varr [.vobj [("a", .vnum 1)]])]
      ∧ jsLookup [("l", .varr [.vobj [("a", .vnum 1)]])] "l"
          = some (.varr [.vobj [("a", .vnum 1)]])
      ∧ isRefType (JValue.vobj [("a", .vnum 1)]) = true
      ∧ (JValue.vobj [("a", .vnum 1)]) ∈ [JValue.vobj [("a", .vnum 1)]]
      ∧ MyJsonDatabase.pullOne
            ⟨.vobj [("l", .varr [.vobj [("a", .vnum 1)]])], "f"⟩ "l"
            (.vobj [("a", .vnum 1)])
          = .ok (save (⟨.vobj [("l", .varr [.vobj [("a", .vnum 1)]])], "f"⟩
              : DBState).data)
      ∧ MyJsonDatabase.pullMany
            ⟨.vobj [("l", .varr [.vobj [("a", .vnum 1)]])], "f"⟩ "l"
            (.vobj [("a", .vnum 1)])
          = .ok (save (⟨.vobj [("l", .varr [.vobj [("a", .vnum 1)]])], "f"⟩
              : DBState).data) :=
  ⟨rfl, rfl, rfl, List.mem_singleton.mpr rfl,
    (claim_C10 ⟨.vobj [("l", .varr [.vobj [("a", .vnum 1)]])], "f"⟩ _ "l"
      [.vobj [("a", .vnum 1)]] (.vobj [("a", .vnum 1)]) (.vobj [("a", .vnum 1)])
      rfl rfl rfl (List.mem_singleton.mpr rfl) rfl).1,
    (claim_C10 ⟨.vobj [("l", .varr [.vobj [("a", .vnum 1)]])], "f"⟩ _ "l"
      [.vobj [("a", .vnum 1)]] (.vobj [("a", .vnum 1)]) (.vobj [("a", .vnum 1)])
      rfl rfl rfl (List.mem_singleton.mpr rfl) rfl).2⟩
